import Mathlib

/-!
Shallow embedding of the adaptive admission-control ("BBR") rate limiter of
the goose repository (src/middleware/bbr/bbr.go), together with proofs of the
spec's claims about it.

Modelling conventions:
* Wall-clock instants (`time.Now().UnixNano()`) and durations (`time.Duration`,
  int64 nanoseconds) are natural numbers of nanoseconds; every operation that
  reads the clock in Go takes the current instant `now : Nat` as an explicit
  argument.
* `float64` values (CPU readings, thresholds, `maxInflight`) are modelled as
  rationals; the float code performs only comparisons and a fixed product or
  quotient, which the rational model reproduces exactly.
* `int64` slot values are `Int`; the min-mode sentinel `math.MaxInt64`
  is the literal 2^63 - 1. Overflow is immaterial to the claims considered.
* Fallible or callback-returning Go functions return `Option` values: the
  callback returned by `Allow` is represented by the start instant it closes
  over (`some now` = non-nil callback, `none` = nil callback).
-/

set_option maxRecDepth 100000

namespace GooseBBR

/-- The float64 literal `0.8` of bbr.go, given directly in lowest terms so
that the kernel can evaluate comparisons against it. -/
def ratPoint8 : ℚ := ⟨4, 5, by decide, by decide⟩

/-- Nanoseconds in one millisecond (Go `time.Millisecond`). -/
def nsPerMs : Nat := 1000000

/-- Nanoseconds in one second (Go `time.Second`). -/
def nsPerSec : Nat := 1000000000

/-- Go `math.MaxInt64`, used as the "no data" sentinel of min-mode counters. -/
def maxInt64 : Int := 9223372036854775807

/-- State of the `rollingCounter` struct of bbr.go: a fixed array of int64
slots, the window and per-bucket durations (nanoseconds), the instant of the
last rotation, and the mode flag (`isMin`: track minimum vs track sum). -/
structure RollingCounter where
  buckets : List Int
  window : Nat
  bucketDur : Nat
  lastUpdate : Nat
  isMin : Bool
deriving DecidableEq, Repr

/-- Go `newRollingCounter(window, buckets, isMin)` called at instant `now`
(the constructor reads `time.Now()` for `lastUpdate`): sum-mode slots start
at 0, min-mode slots start at the sentinel; `bucketDur = window / buckets`
(integer division of int64 nanosecond counts). -/
def newRollingCounter (window : Nat) (nbuckets : Nat) (isMin : Bool) (now : Nat) :
    RollingCounter :=
  { buckets := List.replicate nbuckets (if isMin then maxInt64 else 0)
    window := window
    bucketDur := window / nbuckets
    lastUpdate := now
    isMin := isMin }

/-- The loop body of `rotate`: reset slots `(lastIdx + i) % len` for
`i = 1 .. num` to the mode's empty value.  The modulus uses the length of the
original array, which every `List.set` preserves. -/
def clearSlots (bs : List Int) (lastIdx : Nat) (num : Nat) (e : Int) : List Int :=
  (List.range num).foldl (fun b i => b.set ((lastIdx + 1 + i) % bs.length) e) bs

/-- Go `(*rollingCounter).rotate()` evaluated at instant `now`: if less than
one bucket duration elapsed since `lastUpdate`, do nothing; otherwise clear
`min(elapsed/bucketDur, len(buckets))` slots following the slot of
`lastUpdate` and advance `lastUpdate` to `now`. -/
def RollingCounter.rotate (c : RollingCounter) (now : Nat) : RollingCounter :=
  if now - c.lastUpdate < c.bucketDur then c
  else
    let elapsed := now - c.lastUpdate
    let numToClear := min (elapsed / c.bucketDur) c.buckets.length
    let lastIdx := (c.lastUpdate / c.bucketDur) % c.buckets.length
    { c with
      buckets := clearSlots c.buckets lastIdx numToClear (if c.isMin then maxInt64 else 0)
      lastUpdate := now }

/-- The slot index Go computes for the instant `now`:
`(now.UnixNano() / bucketDur) % len(buckets)`. -/
def currentIdx (c : RollingCounter) (now : Nat) : Nat :=
  (now / c.bucketDur) % c.buckets.length

/-- Go `(*rollingCounter).Add(val)` at instant `now`: rotate first, then
either accumulate into the current slot (sum mode) or replace it when the new
value is smaller (min mode). -/
def RollingCounter.Add (c : RollingCounter) (val : Int) (now : Nat) : RollingCounter :=
  let c := c.rotate now
  let idx := currentIdx c now
  if c.isMin then
    if val < c.buckets.getD idx 0 then { c with buckets := c.buckets.set idx val } else c
  else
    { c with buckets := c.buckets.set idx (c.buckets.getD idx 0 + val) }

/-- Go `(*rollingCounter).Max()`: largest slot, starting from 0; in min mode
sentinel slots are skipped.  It reads only the slots - it does not rotate and
never consults the clock. -/
def RollingCounter.Max (c : RollingCounter) : Int :=
  c.buckets.foldl
    (fun m v =>
      if c.isMin = false then (if m < v then v else m)
      else (if v ≠ maxInt64 ∧ m < v then v else m)) 0

/-- One step of the `Min` loop of bbr.go, threading the running minimum and
the `found` flag. -/
def minStep (p : Int × Bool) (v : Int) : Int × Bool :=
  if 0 < v ∧ v ≠ maxInt64 then (if v < p.1 then (v, true) else (p.1, true)) else p

/-- Go `(*rollingCounter).Min()`: smallest slot that is positive and not the
sentinel; 1 when no slot qualifies (division-by-zero guard). Like `Max` it
only reads the slots. -/
def RollingCounter.Min (c : RollingCounter) : Int :=
  if (c.buckets.foldl minStep (maxInt64, false)).2 = true then
    (c.buckets.foldl minStep (maxInt64, false)).1
  else 1

/-- The `options` struct of bbr.go.  `Window` and `CPUInterval` are
`time.Duration` (int64 ns), `Buckets` an int, `CPUThreshold` a float64
(modelled as a rational).  The `CPU` function field is modelled by the flag
`CPUSet` recording whether it is non-nil. -/
structure Options where
  Window : Int
  Buckets : Int
  CPUThreshold : ℚ
  CPUSet : Bool
  CPUInterval : Int
deriving DecidableEq, Repr

/-- Go `defaultOptions()`: 10 s window, 100 buckets, threshold 0.8,
`defaultCPU` as the CPU source (hence `CPUSet := true`), 500 ms interval. -/
def defaultOptions : Options :=
  { Window := 10 * (nsPerSec : Int)
    Buckets := 100
    CPUThreshold := ratPoint8
    CPUSet := true
    CPUInterval := 500 * (nsPerMs : Int) }

/-- Go `(*options).init()`: every non-positive field falls back to its
default; a nil CPU function is replaced by `defaultCPU` (the accompanying
global `setCPUInterval` side effect touches only the process-wide sampler). -/
def Options.init (o : Options) : Options :=
  let o := if o.Window ≤ 0 then { o with Window := 10 * (nsPerSec : Int) } else o
  let o := if o.Buckets ≤ 0 then { o with Buckets := 100 } else o
  let o := if o.CPUThreshold ≤ 0 then { o with CPUThreshold := ratPoint8 } else o
  let o := if o.CPUInterval ≤ 0 then { o with CPUInterval := 500 * (nsPerMs : Int) } else o
  if o.CPUSet = false then { o with CPUSet := true } else o

/-- The configuration options exported by the package (`WithWindow`,
`WithBuckets`, `WithCPUThreshold`, `WithCPU`, `WithCPUInterval`).  Each is a
closure mutating one `options` field; `withCPU` installs a (non-nil)
caller-supplied CPU function. -/
inductive ConfigOpt where
  | withWindow (w : Int)
  | withBuckets (b : Int)
  | withCPUThreshold (t : ℚ)
  | withCPU
  | withCPUInterval (i : Int)
deriving DecidableEq, Repr

/-- Application of one `Option` closure to the options struct. -/
def applyOpt (o : Options) : ConfigOpt → Options
  | .withWindow w => { o with Window := w }
  | .withBuckets b => { o with Buckets := b }
  | .withCPUThreshold t => { o with CPUThreshold := t }
  | .withCPU => { o with CPUSet := true }
  | .withCPUInterval i => { o with CPUInterval := i }

/-- Go `(*options).apply(opts...)`: fold the option closures in order. -/
def Options.apply (o : Options) (opts : List ConfigOpt) : Options :=
  opts.foldl applyOpt o

/-- The full construction path used by the middleware
(`defaultOptions().apply(opts...).init()`), which never fails. -/
def buildOptions (opts : List ConfigOpt) : Options :=
  (defaultOptions.apply opts).init

/-- State of the `bbrLimiter` struct: configuration, the in-flight counter,
the two rolling counters (`passStat` sum mode, `rtStat` min mode) and the
nullable `lastDrop` instant.  The `cpu` function field is modelled by passing
its current reading to each evaluation. -/
structure BBRState where
  conf : Options
  inflight : Int
  passStat : RollingCounter
  rtStat : RollingCounter
  lastDrop : Option Nat
deriving DecidableEq, Repr

/-- Go `(*options).newLimiter()` called at instant `now` (both counters
record `now` as their initial `lastUpdate`).  It is called only after
`init()`, so `Window` and `Buckets` are positive and `toNat` is faithful. -/
def Options.newLimiter (o : Options) (now : Nat) : BBRState :=
  { conf := o
    inflight := 0
    passStat := newRollingCounter o.Window.toNat o.Buckets.toNat false now
    rtStat := newRollingCounter o.Window.toNat o.Buckets.toNat true now
    lastDrop := none }

/-- The limiter the middleware builds:
`defaultOptions().apply(opts...).init().newLimiter()`. -/
def buildLimiter (opts : List ConfigOpt) (now : Nat) : BBRState :=
  (buildOptions opts).newLimiter now

/-- Go `(*bbrLimiter).maxInflight()`:
`float64(passStat.Max()) * float64(rtStat.Min()) / 1000.0 / bucketDuration`
with `bucketDuration = float64(Window) / float64(Buckets) / float64(time.Second)`,
recomputed from the counters on every call. -/
def BBRState.maxInflight (l : BBRState) : ℚ :=
  let maxPass := l.passStat.Max
  let minRT := l.rtStat.Min
  let bucketDuration := (l.conf.Window : ℚ) / (l.conf.Buckets : ℚ) / (nsPerSec : ℚ)
  (maxPass : ℚ) * (minRT : ℚ) / 1000 / bucketDuration

/-- The tail of `shouldDrop` that both the fall-through of the CPU branch and
the high-CPU path reach: the low-concurrency bypass followed by the capacity
comparison.  Returns the decision and the new `lastDrop` value. -/
def dropCheck (l : BBRState) (now : Nat) : Bool × Option Nat :=
  if l.inflight ≤ 1 then (false, l.lastDrop)
  else if l.maxInflight < (l.inflight : ℚ) then (true, some now)
  else (false, l.lastDrop)

/-- Go `(*bbrLimiter).shouldDrop()` with the CPU reading `cpu` (the result of
the `l.cpu()` call) and the current instant `now` made explicit.  Returns the
decision together with the `lastDrop` value after the call (the Go code
mutates the atomic pointer in place). -/
def BBRState.shouldDrop (l : BBRState) (cpu : ℚ) (now : Nat) : Bool × Option Nat :=
  if cpu < l.conf.CPUThreshold then
    match l.lastDrop with
    | none => (false, none)
    | some t =>
      if nsPerSec < now - t then (false, none)
      else dropCheck l now
  else dropCheck l now

/-- The single error value `ErrLimitExceeded` the limiter can return. -/
inductive BBRError where
  | limitExceeded
deriving DecidableEq, Repr

/-- Go `(*bbrLimiter).Allow()` at instant `now` with CPU reading `cpu`.
Result: the start instant the returned callback closes over (`none` models a
nil callback), the error (`none` models a nil error), and the state after the
call. -/
def BBRState.Allow (l : BBRState) (cpu : ℚ) (now : Nat) :
    Option Nat × Option BBRError × BBRState :=
  let r := l.shouldDrop cpu now
  let l1 : BBRState := { l with lastDrop := r.2 }
  if r.1 then (none, some BBRError.limitExceeded, l1)
  else (some now, none, { l1 with inflight := l1.inflight + 1 })

/-- The completion callback returned by `Allow`, invoked at instant `now`
with the caller-reported status: always decrement `inflight`; on a 2xx status
record one unit into `passStat` and the elapsed milliseconds
(`time.Since(startTime) / time.Millisecond`) into `rtStat`. -/
def BBRState.done (l : BBRState) (startTime : Nat) (status : Int) (now : Nat) : BBRState :=
  let rt : Int := (((now - startTime) / nsPerMs : Nat) : Int)
  let l1 :=
    if 200 ≤ status ∧ status ≤ 299 then
      { l with passStat := l.passStat.Add 1 now, rtStat := l.rtStat.Add rt now }
    else l
  { l1 with inflight := l1.inflight - 1 }

/-! ### Helper lemmas about the slot array operations -/

/-- Folding `set` over a list of positions preserves the length. -/
theorem foldl_set_length (is : List Nat) (f : Nat → Nat) (e : Int) :
    ∀ bs : List Int, (is.foldl (fun b i => b.set (f i) e) bs).length = bs.length := by
  induction is with
  | nil => intro bs; rfl
  | cons a is ih => intro bs; rw [List.foldl_cons, ih, List.length_set]

/-- Element description of a fold of `set`s that all write the same value. -/
theorem foldl_set_getElem? (is : List Nat) (f : Nat → Nat) (e : Int) :
    ∀ (bs : List Int) (j : Nat),
      (is.foldl (fun b i => b.set (f i) e) bs)[j]? =
        if ∃ i ∈ is, f i = j then (if j < bs.length then some e else none) else bs[j]? := by
  induction is with
  | nil => intro bs j; simp
  | cons a is ih =>
    intro bs j
    rw [List.foldl_cons, ih, List.length_set]
    by_cases hfa : f a = j
    · by_cases hex : ∃ i ∈ is, f i = j
      · simp [hfa, hex]
      · simp only [hex, if_false]
        rw [List.getElem?_set, if_pos hfa]
        simp [hfa, hex]
    · by_cases hex : ∃ i ∈ is, f i = j
      · simp [hfa, hex]
      · simp only [hex, if_false]
        rw [List.getElem?_set, if_neg hfa]
        simp [hfa, hex]

/-- Every element of such a fold is either the written value or an element of
the original array. -/
theorem mem_foldl_set (is : List Nat) (f : Nat → Nat) (e : Int) :
    ∀ (bs : List Int) (x : Int), x ∈ is.foldl (fun b i => b.set (f i) e) bs →
      x = e ∨ x ∈ bs := by
  induction is with
  | nil => intro bs x hx; exact Or.inr hx
  | cons a is ih =>
    intro bs x hx
    rw [List.foldl_cons] at hx
    rcases ih _ _ hx with h | h
    · exact Or.inl h
    · rcases List.mem_or_eq_of_mem_set h with h2 | h2
      · exact Or.inr h2
      · exact Or.inl h2

/-- `clearSlots` preserves the length. -/
theorem clearSlots_length (bs : List Int) (lastIdx num : Nat) (e : Int) :
    (clearSlots bs lastIdx num e).length = bs.length :=
  foldl_set_length _ _ _ _

/-- Clearing as many slots as the array holds clears every slot: the indices
`(lastIdx + i) % len` for `i = 1 .. len` cover all residues. -/
theorem clearSlots_full (bs : List Int) (lastIdx : Nat) (e : Int)
    (hn : 0 < bs.length) :
    clearSlots bs lastIdx bs.length e = List.replicate bs.length e := by
  apply List.ext_getElem?
  intro j
  unfold clearSlots
  rw [foldl_set_getElem?, List.getElem?_replicate]
  by_cases hj : j < bs.length
  · have hex : ∃ i ∈ List.range bs.length, (lastIdx + 1 + i) % bs.length = j := by
      refine ⟨(bs.length + j - (lastIdx + 1) % bs.length) % bs.length, ?_, ?_⟩
      · exact List.mem_range.mpr (Nat.mod_lt _ hn)
      · have ha : (lastIdx + 1) % bs.length < bs.length := Nat.mod_lt _ hn
        have hq := Nat.mod_add_div (lastIdx + 1) bs.length
        have h1 : lastIdx + 1 + (bs.length + j - (lastIdx + 1) % bs.length)
            = bs.length * ((lastIdx + 1) / bs.length) + (bs.length + j) := by omega
        rw [Nat.add_mod, Nat.mod_mod_of_dvd _ (dvd_refl _), ← Nat.add_mod, h1,
          Nat.mul_add_mod, Nat.add_mod_left, Nat.mod_eq_of_lt hj]
    rw [if_pos hex, if_pos hj]
  · rw [if_neg hj]
    split
    · rfl
    · exact List.getElem?_eq_none (le_of_not_lt hj)

/-! ### Characterizations of the Max and Min scans -/

/-- The initial accumulator bounds the running-maximum fold from below. -/
theorem maxFold_init_le (bs : List Int) :
    ∀ m : Int, m ≤ bs.foldl (fun m v => if m < v then v else m) m := by
  induction bs with
  | nil => intro m; exact le_refl m
  | cons b bs ih =>
    intro m
    rw [List.foldl_cons]
    by_cases h : m < b
    · rw [if_pos h]; exact le_trans (le_of_lt h) (ih b)
    · rw [if_neg h]; exact ih m

/-- Every element bounds the running-maximum fold from below. -/
theorem maxFold_le_mem (bs : List Int) :
    ∀ (m x : Int), x ∈ bs → x ≤ bs.foldl (fun m v => if m < v then v else m) m := by
  induction bs with
  | nil => intro m x hx; cases hx
  | cons b bs ih =>
    intro m x hx
    rw [List.foldl_cons]
    rcases List.mem_cons.mp hx with rfl | hx
    · by_cases h : m < x
      · rw [if_pos h]; exact maxFold_init_le bs x
      · rw [if_neg h]; exact le_trans (le_of_not_lt h) (maxFold_init_le bs m)
    · by_cases h : m < b
      · rw [if_pos h]; exact ih b x hx
      · rw [if_neg h]; exact ih m x hx

/-- An upper bound of the accumulator and of all elements bounds the
running-maximum fold from above. -/
theorem maxFold_le (bs : List Int) :
    ∀ (m u : Int), m ≤ u → (∀ x ∈ bs, x ≤ u) →
      bs.foldl (fun m v => if m < v then v else m) m ≤ u := by
  induction bs with
  | nil => intro m u hm _; exact hm
  | cons b bs ih =>
    intro m u hm hall
    rw [List.foldl_cons]
    by_cases h : m < b
    · rw [if_pos h]
      exact ih b u (hall b (List.mem_cons_self b bs)) (fun x hx => hall x (List.mem_cons_of_mem b hx))
    · rw [if_neg h]
      exact ih m u hm (fun x hx => hall x (List.mem_cons_of_mem b hx))

/-- In sum mode the `Max` scan is the plain running-maximum fold. -/
theorem Max_sum_eq (c : RollingCounter) (hmin : c.isMin = false) :
    c.Max = c.buckets.foldl (fun m v => if m < v then v else m) 0 := by
  unfold RollingCounter.Max
  simp [hmin]

/-- Sum-mode `Max` of an array whose elements are bounded by a nonnegative
member `v` is exactly `v`. -/
theorem Max_sum_of_bounds (c : RollingCounter) (hmin : c.isMin = false) (v : Int)
    (h0 : 0 ≤ v) (hmem : v ∈ c.buckets) (hub : ∀ x ∈ c.buckets, x ≤ v) :
    c.Max = v := by
  rw [Max_sum_eq c hmin]
  exact le_antisymm (maxFold_le _ _ _ h0 hub) (maxFold_le_mem _ _ _ hmem)

/-- Sum-mode `Max` of an array of nonpositive slots is 0. -/
theorem Max_sum_zero (c : RollingCounter) (hmin : c.isMin = false)
    (hall : ∀ x ∈ c.buckets, x ≤ 0) : c.Max = 0 := by
  rw [Max_sum_eq c hmin]
  exact le_antisymm (maxFold_le _ _ _ (le_refl 0) hall) (maxFold_init_le _ _)

/-- A list with no qualifying element (positive and not the sentinel) leaves
the `Min` scan state untouched. -/
theorem minFold_of_none (bs : List Int) :
    ∀ p : Int × Bool, (∀ x ∈ bs, ¬(0 < x ∧ x ≠ maxInt64)) →
      bs.foldl minStep p = p := by
  induction bs with
  | nil => intro p _; rfl
  | cons b bs ih =>
    intro p hall
    rw [List.foldl_cons]
    have hb : ¬(0 < b ∧ b ≠ maxInt64) := hall b (List.mem_cons_self b bs)
    rw [minStep, if_neg hb]
    exact ih p (fun x hx => hall x (List.mem_cons_of_mem b hx))

/-- The running minimum of the `Min` scan never increases. -/
theorem minFold_fst_le (bs : List Int) :
    ∀ p : Int × Bool, (bs.foldl minStep p).1 ≤ p.1 := by
  induction bs with
  | nil => intro p; exact le_refl _
  | cons b bs ih =>
    intro p
    rw [List.foldl_cons, minStep]
    by_cases hb : 0 < b ∧ b ≠ maxInt64
    · rw [if_pos hb]
      by_cases hlt : b < p.1
      · rw [if_pos hlt]
        exact le_trans (ih (b, true)) (le_of_lt hlt)
      · rw [if_neg hlt]
        exact ih (p.1, true)
    · rw [if_neg hb]
      exact ih p

/-- The running minimum of the `Min` scan is bounded by every qualifying
element. -/
theorem minFold_le_mem (bs : List Int) :
    ∀ (p : Int × Bool) (x : Int), x ∈ bs → 0 < x → x ≠ maxInt64 →
      (bs.foldl minStep p).1 ≤ x := by
  induction bs with
  | nil => intro p x hx; cases hx
  | cons b bs ih =>
    intro p x hx h0 hM
    rw [List.foldl_cons]
    rcases List.mem_cons.mp hx with rfl | hx
    · rw [minStep, if_pos ⟨h0, hM⟩]
      by_cases hlt : x < p.1
      · rw [if_pos hlt]
        exact minFold_fst_le bs (x, true)
      · rw [if_neg hlt]
        exact le_trans (minFold_fst_le bs (p.1, true)) (le_of_not_lt hlt)
    · exact ih _ x hx h0 hM

/-- The running minimum either still is the initial accumulator or is a
qualifying element of the list. -/
theorem minFold_fst_mem (bs : List Int) :
    ∀ p : Int × Bool, (bs.foldl minStep p).1 = p.1 ∨
      ((bs.foldl minStep p).1 ∈ bs ∧ 0 < (bs.foldl minStep p).1 ∧
        (bs.foldl minStep p).1 ≠ maxInt64) := by
  induction bs with
  | nil => intro p; exact Or.inl rfl
  | cons b bs ih =>
    intro p
    rw [List.foldl_cons, minStep]
    by_cases hb : 0 < b ∧ b ≠ maxInt64
    · rw [if_pos hb]
      by_cases hlt : b < p.1
      · rw [if_pos hlt]
        rcases ih (b, true) with h | h
        · exact Or.inr ⟨h ▸ List.mem_cons_self b bs, h ▸ hb.1, h ▸ hb.2⟩
        · exact Or.inr ⟨List.mem_cons_of_mem b h.1, h.2⟩
      · rw [if_neg hlt]
        rcases ih (p.1, true) with h | h
        · exact Or.inl h
        · exact Or.inr ⟨List.mem_cons_of_mem b h.1, h.2⟩
    · rw [if_neg hb]
      rcases ih p with h | h
      · exact Or.inl h
      · exact Or.inr ⟨List.mem_cons_of_mem b h.1, h.2⟩

/-- Once a qualifying element has been seen, the `found` flag is set. -/
theorem minFold_snd_true (bs : List Int) :
    ∀ (p : Int × Bool) (x : Int), x ∈ bs → 0 < x → x ≠ maxInt64 →
      (bs.foldl minStep p).2 = true := by
  induction bs with
  | nil => intro p x hx; cases hx
  | cons b bs ih =>
    intro p x hx h0 hM
    rw [List.foldl_cons]
    rcases List.mem_cons.mp hx with rfl | hx
    · rw [minStep, if_pos ⟨h0, hM⟩]
      have hsnd : ∀ q : Int × Bool, q.2 = true → (bs.foldl minStep q).2 = true := by
        intro q hq
        clear ih hx
        induction bs generalizing q with
        | nil => exact hq
        | cons d ds ihd =>
          rw [List.foldl_cons, minStep]
          by_cases hd : 0 < d ∧ d ≠ maxInt64
          · rw [if_pos hd]
            by_cases hlt : d < q.1
            · rw [if_pos hlt]; exact ihd (d, true) rfl
            · rw [if_neg hlt]; exact ihd (q.1, true) rfl
          · rw [if_neg hd]; exact ihd q hq
      by_cases hlt : x < p.1
      · rw [if_pos hlt]; exact hsnd (x, true) rfl
      · rw [if_neg hlt]; exact hsnd (p.1, true) rfl
    · exact ih _ x hx h0 hM

/-- Min of a counter with no qualifying slot is the guard value 1. -/
theorem Min_eq_one (c : RollingCounter)
    (hall : ∀ x ∈ c.buckets, ¬(0 < x ∧ x ≠ maxInt64)) : c.Min = 1 := by
  unfold RollingCounter.Min
  rw [minFold_of_none c.buckets (maxInt64, false) hall]
  rfl

/-- Min of a counter whose slots are int64 values and which holds at least
one qualifying slot: the result is a qualifying slot and a lower bound of all
qualifying slots. -/
theorem Min_spec (c : RollingCounter) (hrange : ∀ x ∈ c.buckets, x ≤ maxInt64)
    (x : Int) (hx : x ∈ c.buckets) (h0 : 0 < x) (hM : x ≠ maxInt64) :
    c.Min ∈ c.buckets ∧ 0 < c.Min ∧ c.Min ≠ maxInt64 ∧
      ∀ y ∈ c.buckets, 0 < y → y ≠ maxInt64 → c.Min ≤ y := by
  have hsnd := minFold_snd_true c.buckets (maxInt64, false) x hx h0 hM
  have hmin : c.Min = (c.buckets.foldl minStep (maxInt64, false)).1 := by
    unfold RollingCounter.Min
    rw [hsnd, if_pos rfl]
  rcases minFold_fst_mem c.buckets (maxInt64, false) with h | h
  · exfalso
    have hlex := minFold_le_mem c.buckets (maxInt64, false) x hx h0 hM
    rw [h] at hlex
    exact hM (le_antisymm (hrange x hx) hlex)
  · refine ⟨hmin ▸ h.1, hmin ▸ h.2.1, hmin ▸ h.2.2, ?_⟩
    intro y hy hy0 hyM
    rw [hmin]
    exact minFold_le_mem c.buckets (maxInt64, false) y hy hy0 hyM

/-- Min of an array that is the fresh sentinel array with a single qualifying
value `v` written at a valid index is `v`. -/
theorem Min_single (c : RollingCounter) (n idx : Nat) (v : Int)
    (hidx : idx < n) (h0 : 0 < v) (hM : v ≠ maxInt64) (hvle : v ≤ maxInt64)
    (hb : c.buckets = (List.replicate n maxInt64).set idx v) : c.Min = v := by
  have hlen : ((List.replicate n maxInt64).set idx v).length = n := by
    rw [List.length_set, List.length_replicate]
  have hvmem : v ∈ c.buckets := by
    rw [hb]
    have : ((List.replicate n maxInt64).set idx v)[idx]? = some v := by
      rw [List.getElem?_set, if_pos rfl, List.length_replicate, if_pos hidx]
    exact List.getElem?_mem this
  have helem : ∀ x ∈ c.buckets, x = v ∨ x = maxInt64 := by
    intro x hx
    rw [hb] at hx
    rcases List.mem_or_eq_of_mem_set hx with h | h
    · exact Or.inr (List.eq_of_mem_replicate h)
    · exact Or.inl h
  have hrange : ∀ x ∈ c.buckets, x ≤ maxInt64 := by
    intro x hx
    rcases helem x hx with rfl | rfl
    · exact hvle
    · exact le_refl _
  have hspec := Min_spec c hrange v hvmem h0 hM
  rcases helem c.Min hspec.1 with h | h
  · exact h
  · exact absurd h hspec.2.2.1

/-! ### Structural facts about rotation and Add -/

/-- Rotation never changes the mode flag. -/
theorem rotate_isMin (c : RollingCounter) (now : Nat) :
    (c.rotate now).isMin = c.isMin := by
  unfold RollingCounter.rotate
  split <;> rfl

/-- Rotation never changes the bucket duration. -/
theorem rotate_bucketDur (c : RollingCounter) (now : Nat) :
    (c.rotate now).bucketDur = c.bucketDur := by
  unfold RollingCounter.rotate
  split <;> rfl

/-- Rotation never changes the number of slots. -/
theorem rotate_length (c : RollingCounter) (now : Nat) :
    (c.rotate now).buckets.length = c.buckets.length := by
  unfold RollingCounter.rotate
  split
  · rfl
  · exact clearSlots_length _ _ _ _

/-- Within one bucket duration of the last update, rotation is a no-op. -/
theorem rotate_self (c : RollingCounter) (now : Nat)
    (h : now - c.lastUpdate < c.bucketDur) : c.rotate now = c := by
  unfold RollingCounter.rotate
  rw [if_pos h]

/-- After rotating at `now`, less than one bucket duration has elapsed
(provided the duration is positive). -/
theorem rotate_lastUpdate_lt (c : RollingCounter) (now : Nat)
    (hbd : 0 < c.bucketDur) :
    now - (c.rotate now).lastUpdate < c.bucketDur := by
  unfold RollingCounter.rotate
  split
  · assumption
  · simp only
    omega

/-- An array of empty slots is unchanged by rotation. -/
theorem rotate_buckets_const (c : RollingCounter) (now : Nat)
    (hall : ∀ x ∈ c.buckets, x = (if c.isMin then maxInt64 else 0)) :
    (c.rotate now).buckets = c.buckets := by
  unfold RollingCounter.rotate
  split
  · rfl
  · simp only
    have h1 : ∀ x ∈ clearSlots c.buckets ((c.lastUpdate / c.bucketDur) % c.buckets.length)
        (min ((now - c.lastUpdate) / c.bucketDur) c.buckets.length)
        (if c.isMin then maxInt64 else 0), x = (if c.isMin then maxInt64 else 0) := by
      intro x hx
      rcases mem_foldl_set _ _ _ _ _ hx with h | h
      · exact h
      · exact hall x h
    rw [List.eq_replicate_of_mem h1, List.eq_replicate_of_mem hall, clearSlots_length]
    rw [List.length_replicate]

/-- A gap of at least one full window (as `len * bucketDur`) clears every
slot at rotation. -/
theorem rotate_clear_all (c : RollingCounter) (now : Nat)
    (hn : 0 < c.buckets.length) (hbd : 0 < c.bucketDur)
    (hel : c.buckets.length * c.bucketDur ≤ now - c.lastUpdate) :
    (c.rotate now).buckets =
      List.replicate c.buckets.length (if c.isMin then maxInt64 else 0) := by
  unfold RollingCounter.rotate
  rw [if_neg]
  · simp only
    have hnum : min ((now - c.lastUpdate) / c.bucketDur) c.buckets.length
        = c.buckets.length := by
      rw [min_eq_right]
      rw [Nat.le_div_iff_mul_le hbd]
      exact hel
    rw [hnum, clearSlots_full _ _ _ hn]
  · push_neg
    calc c.bucketDur = 1 * c.bucketDur := (one_mul _).symm
    _ ≤ c.buckets.length * c.bucketDur := Nat.mul_le_mul_right _ hn
    _ ≤ now - c.lastUpdate := hel

/-- `Add` never changes the mode flag. -/
theorem Add_isMin (c : RollingCounter) (v : Int) (now : Nat) :
    (c.Add v now).isMin = c.isMin := by
  simp only [RollingCounter.Add]
  split
  · split <;> rw [rotate_isMin]
  · rw [rotate_isMin]

/-- `Add` never changes the bucket duration. -/
theorem Add_bucketDur (c : RollingCounter) (v : Int) (now : Nat) :
    (c.Add v now).bucketDur = c.bucketDur := by
  simp only [RollingCounter.Add]
  split
  · split <;> rw [rotate_bucketDur]
  · rw [rotate_bucketDur]

/-- `Add` never changes the number of slots. -/
theorem Add_length (c : RollingCounter) (v : Int) (now : Nat) :
    (c.Add v now).buckets.length = c.buckets.length := by
  simp only [RollingCounter.Add]
  split
  · split
    · rw [List.length_set, rotate_length]
    · rw [rotate_length]
  · rw [List.length_set, rotate_length]

/-- Right after an `Add` at `now`, less than one bucket duration has elapsed
since the last update (provided the duration is positive). -/
theorem Add_lastUpdate_lt (c : RollingCounter) (v : Int) (now : Nat)
    (hbd : 0 < c.bucketDur) :
    now - (c.Add v now).lastUpdate < (c.Add v now).bucketDur := by
  rw [Add_bucketDur]
  have h := rotate_lastUpdate_lt c now hbd
  simp only [RollingCounter.Add]
  split
  · split
    · exact h
    · exact h
  · exact h

/-- The slot index is insensitive to rotation (which changes neither the
bucket duration nor the number of slots). -/
theorem currentIdx_rotate (c : RollingCounter) (t now : Nat) :
    currentIdx (c.rotate t) now = currentIdx c now := by
  unfold currentIdx
  rw [rotate_bucketDur, rotate_length]

/-- The slot index is always a valid index when there are slots. -/
theorem currentIdx_lt (c : RollingCounter) (now : Nat) (hn : 0 < c.buckets.length) :
    currentIdx c now < c.buckets.length :=
  Nat.mod_lt _ hn

/-- Rotating first and then adding at the same instant is the same as adding
directly: the inner rotation of `Add` is then a no-op. -/
theorem Add_rotate (c : RollingCounter) (v : Int) (now : Nat)
    (hbd : 0 < c.bucketDur) : (c.rotate now).Add v now = c.Add v now := by
  show ((c.rotate now).Add v now) = _
  unfold RollingCounter.Add
  rw [rotate_self (c.rotate now) now]
  rw [rotate_bucketDur]
  exact rotate_lastUpdate_lt c now hbd

/-- Sum-mode `Add` description: the current slot of the rotated array is
incremented by the value. -/
theorem Add_sum_buckets (c : RollingCounter) (v : Int) (now : Nat)
    (hmin : c.isMin = false) :
    (c.Add v now).buckets = (c.rotate now).buckets.set (currentIdx c now)
      ((c.rotate now).buckets.getD (currentIdx c now) 0 + v) := by
  simp only [RollingCounter.Add]
  rw [currentIdx_rotate]
  rw [if_neg]
  rw [rotate_isMin, hmin]
  simp

/-- Adding `v` to an all-zero sum-mode array writes `v` into the current
slot. -/
theorem Add_on_zero_sum (c : RollingCounter) (v : Int) (now : Nat)
    (hmin : c.isMin = false)
    (hb : c.buckets = List.replicate c.buckets.length 0) :
    (c.Add v now).buckets = c.buckets.set (currentIdx c now) v := by
  have hall : ∀ x ∈ c.buckets, x = (if c.isMin then maxInt64 else 0) := by
    rw [hmin]
    intro x hx
    rw [hb] at hx
    exact List.eq_of_mem_replicate hx
  have hrb := rotate_buckets_const c now hall
  rw [Add_sum_buckets c v now hmin, hrb]
  have hgd : c.buckets.getD (currentIdx c now) 0 = 0 := by
    rw [List.getD_eq_getElem?_getD, hb, List.getElem?_replicate]
    split <;> rfl
  rw [hgd, zero_add]

/-- Adding a value below the sentinel to an all-sentinel min-mode array
writes it into the current slot. -/
theorem Add_on_sentinel_min (c : RollingCounter) (v : Int) (now : Nat)
    (hmin : c.isMin = true)
    (hb : c.buckets = List.replicate c.buckets.length maxInt64)
    (hn : 0 < c.buckets.length) (hv : v < maxInt64) :
    (c.Add v now).buckets = c.buckets.set (currentIdx c now) v := by
  have hall : ∀ x ∈ c.buckets, x = (if c.isMin then maxInt64 else 0) := by
    rw [hmin]
    intro x hx
    rw [hb] at hx
    exact List.eq_of_mem_replicate hx
  have hrb := rotate_buckets_const c now hall
  simp only [RollingCounter.Add]
  rw [currentIdx_rotate, hrb, if_pos, if_pos]
  · have hgd : c.buckets.getD (currentIdx c now) 0 = maxInt64 := by
      rw [List.getD_eq_getElem?_getD, hb, List.getElem?_replicate,
        if_pos (currentIdx_lt c now hn)]
      rfl
    rw [hgd]
    exact hv
  · rw [rotate_isMin, hmin]

/-- Max after adding a nonnegative value to an all-zero sum-mode array is
that value. -/
theorem Max_after_Add_on_zero (c : RollingCounter) (v : Int) (now : Nat)
    (hmin : c.isMin = false)
    (hb : c.buckets = List.replicate c.buckets.length 0)
    (hn : 0 < c.buckets.length) (hv : 0 ≤ v) :
    (c.Add v now).Max = v := by
  have hbuf := Add_on_zero_sum c v now hmin hb
  apply Max_sum_of_bounds _ (by rw [Add_isMin]; exact hmin) v hv
  · rw [hbuf]
    apply List.getElem?_mem
    rw [List.getElem?_set, if_pos rfl, if_pos (currentIdx_lt c now hn)]
  · intro x hx
    rw [hbuf] at hx
    rcases List.mem_or_eq_of_mem_set hx with h | h
    · rw [hb] at h
      rw [List.eq_of_mem_replicate h]
      exact hv
    · exact le_of_eq h


/-- Min after adding a qualifying value to an all-sentinel min-mode array is
that value. -/
theorem Min_after_Add_on_sentinel (c : RollingCounter) (v : Int) (now : Nat)
    (hmin : c.isMin = true)
    (hb : c.buckets = List.replicate c.buckets.length maxInt64)
    (hn : 0 < c.buckets.length) (h0 : 0 < v) (hv : v < maxInt64) :
    (c.Add v now).Min = v := by
  have hbuf := Add_on_sentinel_min c v now hmin hb hn hv
  apply Min_single (c.Add v now) c.buckets.length (currentIdx c now) v
    (currentIdx_lt c now hn) h0 (ne_of_lt hv) (le_of_lt hv)
  rw [hbuf, hb, List.length_replicate]

/-! ### Claims -/

/-- Claim C7: for every limiter state whose in-flight count is at most 1,
`shouldDrop` returns false and `Allow` succeeds - it returns a non-nil
callback and a nil error - regardless of the CPU reading, the recorded
rejection timestamp, and the contents of the statistics counters. -/
theorem low_concurrency_bypass (l : BBRState) (cpu : ℚ) (now : Nat)
    (h : l.inflight ≤ 1) :
    (l.shouldDrop cpu now).1 = false ∧
      (l.Allow cpu now).1 = some now ∧ (l.Allow cpu now).2.1 = none := by
  have hdc : (dropCheck l now).1 = false := by
    unfold dropCheck
    rw [if_pos h]
  have hd : (l.shouldDrop cpu now).1 = false := by
    unfold BBRState.shouldDrop
    by_cases h1 : cpu < l.conf.CPUThreshold
    · rw [if_pos h1]
      cases l.lastDrop with
      | none => rfl
      | some t =>
        dsimp only
        by_cases h2 : nsPerSec < now - t
        · rw [if_pos h2]
        · rw [if_neg h2]
          exact hdc
    · rw [if_neg h1]
      exact hdc
  refine ⟨hd, ?_, ?_⟩ <;>
    simp [BBRState.Allow, hd]

/-- Claim C7 witness at a concrete state: one in-flight request, CPU at 1.0
(above the 0.8 threshold), a recent rejection marker, and non-trivial
statistics. -/
theorem low_concurrency_bypass_witness :
    ({ (buildLimiter [] 0) with inflight := 1, lastDrop := some 0 } : BBRState).inflight ≤ 1 ∧
      ((({ (buildLimiter [] 0) with inflight := 1, lastDrop := some 0 } : BBRState).shouldDrop 1 500).1 = false ∧
        (({ (buildLimiter [] 0) with inflight := 1, lastDrop := some 0 } : BBRState).Allow 1 500).1 = some 500 ∧
        (({ (buildLimiter [] 0) with inflight := 1, lastDrop := some 0 } : BBRState).Allow 1 500).2.1 = none) :=
  ⟨by decide, low_concurrency_bypass _ 1 500 (by decide)⟩

/-- Claim C8: with the CPU reading strictly below the threshold and no
rejection timestamp recorded, `shouldDrop` returns false (leaving the marker
absent) and `Allow` succeeds, whatever the in-flight counter and the
statistics hold. -/
theorem cpu_gated_bypass (l : BBRState) (cpu : ℚ) (now : Nat)
    (hcpu : cpu < l.conf.CPUThreshold) (hld : l.lastDrop = none) :
    l.shouldDrop cpu now = (false, none) ∧
      (l.Allow cpu now).1 = some now ∧ (l.Allow cpu now).2.1 = none ∧
      (l.Allow cpu now).2.2.inflight = l.inflight + 1 := by
  have hd : l.shouldDrop cpu now = (false, none) := by
    unfold BBRState.shouldDrop
    rw [if_pos hcpu, hld]
  have hfst : (l.shouldDrop cpu now).1 = false := by rw [hd]
  refine ⟨hd, ?_, ?_, ?_⟩ <;>
    simp [BBRState.Allow, hfst]

/-- Claim C8 witness: a limiter with an artificially large in-flight count
(1000000), cold statistics, CPU reading 0, and no recorded rejection. -/
theorem cpu_gated_bypass_witness :
    ((0 : ℚ) < ({ (buildLimiter [] 0) with inflight := 1000000 } : BBRState).conf.CPUThreshold ∧
      ({ (buildLimiter [] 0) with inflight := 1000000 } : BBRState).lastDrop = none) ∧
      (({ (buildLimiter [] 0) with inflight := 1000000 } : BBRState).shouldDrop 0 7 = (false, none) ∧
        (({ (buildLimiter [] 0) with inflight := 1000000 } : BBRState).Allow 0 7).1 = some 7 ∧
        (({ (buildLimiter [] 0) with inflight := 1000000 } : BBRState).Allow 0 7).2.1 = none ∧
        (({ (buildLimiter [] 0) with inflight := 1000000 } : BBRState).Allow 0 7).2.2.inflight =
          ({ (buildLimiter [] 0) with inflight := 1000000 } : BBRState).inflight + 1) :=
  ⟨⟨by decide, by decide⟩, cpu_gated_bypass _ 0 7 (by decide) (by decide)⟩

/-- Claim C9: `Allow` returns `ErrLimitExceeded` exactly when `shouldDrop`
evaluates to true; on rejection the callback is nil and neither `inflight`
nor the statistics counters change; on success `inflight` grows by exactly
one, the callback is non-nil, the error nil, and the statistics counters are
untouched at admission time. -/
theorem allow_reject_iff_shouldDrop (l : BBRState) (cpu : ℚ) (now : Nat) :
    ((l.Allow cpu now).2.1 = some BBRError.limitExceeded ↔ (l.shouldDrop cpu now).1 = true) ∧
      ((l.shouldDrop cpu now).1 = true →
        (l.Allow cpu now).1 = none ∧
        (l.Allow cpu now).2.2.inflight = l.inflight ∧
        (l.Allow cpu now).2.2.passStat = l.passStat ∧
        (l.Allow cpu now).2.2.rtStat = l.rtStat) ∧
      ((l.shouldDrop cpu now).1 = false →
        (l.Allow cpu now).1 = some now ∧ (l.Allow cpu now).2.1 = none ∧
        (l.Allow cpu now).2.2.inflight = l.inflight + 1 ∧
        (l.Allow cpu now).2.2.passStat = l.passStat ∧
        (l.Allow cpu now).2.2.rtStat = l.rtStat) := by
  cases hd : (l.shouldDrop cpu now).1 with
  | false =>
    refine ⟨?_, ?_, ?_⟩ <;> simp [BBRState.Allow, hd]
  | true =>
    refine ⟨?_, ?_, ?_⟩ <;> simp [BBRState.Allow, hd]

/-- Claim C9 witness at a concrete rejected call (cold limiter, CPU 1 at or
above the threshold, five requests in flight) - the hypothesis-bearing inner
implications are discharged at this input. -/
theorem allow_reject_iff_witness :
    ((({ (buildLimiter [] 0) with inflight := 5 } : BBRState).Allow 1 3).2.1 = some BBRError.limitExceeded ↔
        (({ (buildLimiter [] 0) with inflight := 5 } : BBRState).shouldDrop 1 3).1 = true) ∧
      ((({ (buildLimiter [] 0) with inflight := 5 } : BBRState).shouldDrop 1 3).1 = true →
        (({ (buildLimiter [] 0) with inflight := 5 } : BBRState).Allow 1 3).1 = none ∧
        (({ (buildLimiter [] 0) with inflight := 5 } : BBRState).Allow 1 3).2.2.inflight =
          ({ (buildLimiter [] 0) with inflight := 5 } : BBRState).inflight ∧
        (({ (buildLimiter [] 0) with inflight := 5 } : BBRState).Allow 1 3).2.2.passStat =
          ({ (buildLimiter [] 0) with inflight := 5 } : BBRState).passStat ∧
        (({ (buildLimiter [] 0) with inflight := 5 } : BBRState).Allow 1 3).2.2.rtStat =
          ({ (buildLimiter [] 0) with inflight := 5 } : BBRState).rtStat) ∧
      ((({ (buildLimiter [] 0) with inflight := 5 } : BBRState).shouldDrop 1 3).1 = false →
        (({ (buildLimiter [] 0) with inflight := 5 } : BBRState).Allow 1 3).1 = some 3 ∧
        (({ (buildLimiter [] 0) with inflight := 5 } : BBRState).Allow 1 3).2.1 = none ∧
        (({ (buildLimiter [] 0) with inflight := 5 } : BBRState).Allow 1 3).2.2.inflight =
          ({ (buildLimiter [] 0) with inflight := 5 } : BBRState).inflight + 1 ∧
        (({ (buildLimiter [] 0) with inflight := 5 } : BBRState).Allow 1 3).2.2.passStat =
          ({ (buildLimiter [] 0) with inflight := 5 } : BBRState).passStat ∧
        (({ (buildLimiter [] 0) with inflight := 5 } : BBRState).Allow 1 3).2.2.rtStat =
          ({ (buildLimiter [] 0) with inflight := 5 } : BBRState).rtStat) :=
  allow_reject_iff_shouldDrop _ 1 3

/-- Claim C1: for every limiter state, `maxInflight` equals the peak
successful-requests-per-bucket (`passStat.Max`) times the minimum observed
latency in seconds (`rtStat.Min` milliseconds divided by 1000) divided by the
bucket duration in seconds (`Window/Buckets` nanoseconds over one second of
nanoseconds); and every `shouldDrop` evaluation that reaches the capacity
check (CPU at or above threshold here, in-flight above 1) compares the live
in-flight count against `maxInflight` recomputed from the counters carried in
the current state - the embedding takes it from the state at the call, never
from a cache. -/
theorem maxInflight_recomputed_each_shouldDrop (l : BBRState) :
    l.maxInflight =
      (l.passStat.Max : ℚ) * ((l.rtStat.Min : ℚ) / 1000) /
        ((l.conf.Window : ℚ) / (l.conf.Buckets : ℚ) / ((nsPerSec : Nat) : ℚ)) ∧
      ∀ (cpu : ℚ) (now : Nat), ¬ cpu < l.conf.CPUThreshold → 1 < l.inflight →
        ((l.shouldDrop cpu now).1 = true ↔ l.maxInflight < (l.inflight : ℚ)) := by
  constructor
  · unfold BBRState.maxInflight
    dsimp only
    ring
  · intro cpu now hcpu hinf
    unfold BBRState.shouldDrop
    rw [if_neg hcpu]
    unfold dropCheck
    rw [if_neg (not_le.mpr hinf)]
    by_cases hmi : l.maxInflight < (l.inflight : ℚ)
    · rw [if_pos hmi]
      simp [hmi]
    · rw [if_neg hmi]
      simp [hmi]

/-- Claim C1 witness: the formula and the capacity check evaluated on a
concrete state (cold statistics, two requests in flight, CPU 1). -/
theorem maxInflight_recomputed_witness :
    ({ (buildLimiter [] 0) with inflight := 2 } : BBRState).maxInflight =
      (({ (buildLimiter [] 0) with inflight := 2 } : BBRState).passStat.Max : ℚ) *
          ((({ (buildLimiter [] 0) with inflight := 2 } : BBRState).rtStat.Min : ℚ) / 1000) /
        ((({ (buildLimiter [] 0) with inflight := 2 } : BBRState).conf.Window : ℚ) /
            (({ (buildLimiter [] 0) with inflight := 2 } : BBRState).conf.Buckets : ℚ) /
          ((nsPerSec : Nat) : ℚ)) ∧
      (¬ (1 : ℚ) < ({ (buildLimiter [] 0) with inflight := 2 } : BBRState).conf.CPUThreshold ∧
        1 < ({ (buildLimiter [] 0) with inflight := 2 } : BBRState).inflight) ∧
      ((({ (buildLimiter [] 0) with inflight := 2 } : BBRState).shouldDrop 1 9).1 = true ↔
        ({ (buildLimiter [] 0) with inflight := 2 } : BBRState).maxInflight <
          (({ (buildLimiter [] 0) with inflight := 2 } : BBRState).inflight : ℚ)) := by
  refine ⟨(maxInflight_recomputed_each_shouldDrop _).1, ⟨by decide, by decide⟩, ?_⟩
  exact (maxInflight_recomputed_each_shouldDrop _).2 1 9 (by decide) (by decide)

/-- Concrete limiter for the cooldown analysis: window 100 ns over 10
buckets, statistics cold (no success recorded), one request in flight and a
rejection recorded at instant 0. -/
def cooldownProbeState : BBRState :=
  { (buildLimiter [ConfigOpt.withWindow 100, ConfigOpt.withBuckets 10] 0) with
      inflight := 1, lastDrop := some 0 }

/-- The capacity estimate of the cooldown analysis state is 0: its
`passStat` is empty, so the numerator of the Little's-Law bound vanishes. -/
theorem cooldown_state_maxInflight : cooldownProbeState.maxInflight = 0 := by
  have hmax : cooldownProbeState.passStat.Max = 0 := by decide
  unfold BBRState.maxInflight
  dsimp only
  rw [hmax]
  simp

/-- Claim C4 counterexample: in this state a rejection is recorded at t = 0,
the evaluation happens half a second later (within the one-second cooldown),
the CPU reading 0 is below the threshold, and the in-flight count 1 exceeds
`maxInflight` = 0 - yet `shouldDrop` allows, because the low-concurrency
bypass (`inflight ≤ 1`) fires before the capacity check.  The claim as
stated demands a rejection here. -/
theorem cooldown_low_inflight_counterexample :
    (0 : ℚ) < cooldownProbeState.conf.CPUThreshold ∧
      cooldownProbeState.lastDrop = some 0 ∧
      (500000000 : Nat) - 0 ≤ nsPerSec ∧
      cooldownProbeState.maxInflight < (cooldownProbeState.inflight : ℚ) ∧
      (cooldownProbeState.shouldDrop 0 500000000).1 = false := by
  refine ⟨by decide, by decide, by decide, ?_, by decide⟩
  rw [cooldown_state_maxInflight]
  have hinf : cooldownProbeState.inflight = 1 := rfl
  rw [hinf]
  norm_num

/-- Claim C4, amended: the probe-suppression cooldown holds once the
in-flight count is also at least 2 (so that the low-concurrency bypass does
not fire).  With a rejection recorded at `t`: an evaluation at `now1` within
one second of `t`, with at least two requests in flight and the in-flight
count above `maxInflight`, rejects - for every CPU reading, including ones
below the threshold - and records `now1` as the new rejection instant; an
evaluation at `now2` more than one second after `t` with CPU below the
threshold clears the marker and allows. -/
theorem cooldown_probe_suppression_amended (l : BBRState) (t now1 now2 : Nat)
    (cpu1 cpu2 : ℚ) (hld : l.lastDrop = some t)
    (h1 : now1 - t ≤ nsPerSec) (h2 : 2 ≤ l.inflight)
    (h3 : l.maxInflight < (l.inflight : ℚ))
    (hcpu2 : cpu2 < l.conf.CPUThreshold) (hgt : nsPerSec < now2 - t) :
    l.shouldDrop cpu1 now1 = (true, some now1) ∧
      l.shouldDrop cpu2 now2 = (false, none) := by
  have hdc : dropCheck l now1 = (true, some now1) := by
    unfold dropCheck
    rw [if_neg (by omega : ¬ l.inflight ≤ 1), if_pos h3]
  constructor
  · unfold BBRState.shouldDrop
    by_cases hcpu : cpu1 < l.conf.CPUThreshold
    · rw [if_pos hcpu, hld]
      dsimp only
      rw [if_neg (not_lt.mpr h1)]
      exact hdc
    · rw [if_neg hcpu]
      exact hdc
  · unfold BBRState.shouldDrop
    rw [if_pos hcpu2, hld]
    dsimp only
    rw [if_pos hgt]

/-- Claim C4 witness: the amended cooldown behavior at the concrete state
(two in flight), rejection at t = 0, checks at 0.5 s (rejects, CPU 0) and at
2 s (clears and allows, CPU 0). -/
theorem cooldown_probe_suppression_witness :
    (({ cooldownProbeState with inflight := 2 } : BBRState).lastDrop = some 0 ∧
      (500000000 : Nat) - 0 ≤ nsPerSec ∧
      2 ≤ ({ cooldownProbeState with inflight := 2 } : BBRState).inflight ∧
      ({ cooldownProbeState with inflight := 2 } : BBRState).maxInflight <
        (({ cooldownProbeState with inflight := 2 } : BBRState).inflight : ℚ) ∧
      (0 : ℚ) < ({ cooldownProbeState with inflight := 2 } : BBRState).conf.CPUThreshold ∧
      nsPerSec < (2000000000 : Nat) - 0) ∧
      ({ cooldownProbeState with inflight := 2 } : BBRState).shouldDrop 0 500000000 =
        (true, some 500000000) ∧
      ({ cooldownProbeState with inflight := 2 } : BBRState).shouldDrop 0 2000000000 =
        (false, none) := by
  have hmi : ({ cooldownProbeState with inflight := 2 } : BBRState).maxInflight <
      (({ cooldownProbeState with inflight := 2 } : BBRState).inflight : ℚ) := by
    have heq : ({ cooldownProbeState with inflight := 2 } : BBRState).maxInflight =
        cooldownProbeState.maxInflight := rfl
    rw [heq, cooldown_state_maxInflight]
    norm_num
  refine ⟨⟨by decide, by decide, by decide, hmi, by decide, by decide⟩, ?_⟩
  exact cooldown_probe_suppression_amended _ 0 500000000 2000000000 0 0
    (by decide) (by decide) (by decide) hmi (by decide) (by decide)

/-- Field description of `init`: the window falls back to 10 s exactly when
non-positive. -/
theorem init_Window (o : Options) :
    o.init.Window = if o.Window ≤ 0 then 10 * (nsPerSec : Int) else o.Window := by
  simp only [Options.init]
  split_ifs <;> rfl

/-- Field description of `init`: the bucket count falls back to 100 exactly
when non-positive. -/
theorem init_Buckets (o : Options) :
    o.init.Buckets = if o.Buckets ≤ 0 then 100 else o.Buckets := by
  simp only [Options.init]
  split_ifs <;> rfl

/-- Field description of `init`: the CPU threshold falls back to 0.8 exactly
when non-positive. -/
theorem init_CPUThreshold (o : Options) :
    o.init.CPUThreshold = if o.CPUThreshold ≤ 0 then ratPoint8 else o.CPUThreshold := by
  simp only [Options.init]
  split_ifs <;> rfl

/-- Field description of `init`: the CPU sampling interval falls back to
500 ms exactly when non-positive. -/
theorem init_CPUInterval (o : Options) :
    o.init.CPUInterval = if o.CPUInterval ≤ 0 then 500 * (nsPerMs : Int) else o.CPUInterval := by
  simp only [Options.init]
  split_ifs <;> rfl

/-- Claim C3 counterexample: the option `WithCPUThreshold(2)` survives
`init()` untouched - only non-positive thresholds are replaced - so the
constructed limiter has a CPU threshold outside [0,1], against the claim. -/
theorem cputhreshold_above_one_counterexample :
    (buildOptions [ConfigOpt.withCPUThreshold 2]).CPUThreshold = 2 ∧
      ¬ (buildOptions [ConfigOpt.withCPUThreshold 2]).CPUThreshold ≤ 1 := by
  constructor <;> decide

/-- Claim C3, amended: for every sequence of configuration options the
construction (`defaultOptions().apply(opts...).init()`, which is total and
never fails) yields `Window > 0`, `Buckets > 0`, `CPUThreshold > 0` (not
necessarily at most 1) and `CPUInterval > 0`; each of the four fields is
replaced by its default (10 s, 100, 0.8, 500 ms) exactly when the applied
options left it non-positive, and kept otherwise. -/
theorem options_init_defaults_amended (opts : List ConfigOpt) :
    0 < (buildOptions opts).Window ∧
      0 < (buildOptions opts).Buckets ∧
      0 < (buildOptions opts).CPUThreshold ∧
      0 < (buildOptions opts).CPUInterval ∧
      ((defaultOptions.apply opts).Window ≤ 0 →
        (buildOptions opts).Window = 10 * (nsPerSec : Int)) ∧
      (0 < (defaultOptions.apply opts).Window →
        (buildOptions opts).Window = (defaultOptions.apply opts).Window) ∧
      ((defaultOptions.apply opts).Buckets ≤ 0 → (buildOptions opts).Buckets = 100) ∧
      (0 < (defaultOptions.apply opts).Buckets →
        (buildOptions opts).Buckets = (defaultOptions.apply opts).Buckets) ∧
      ((defaultOptions.apply opts).CPUThreshold ≤ 0 →
        (buildOptions opts).CPUThreshold = ratPoint8) ∧
      (0 < (defaultOptions.apply opts).CPUThreshold →
        (buildOptions opts).CPUThreshold = (defaultOptions.apply opts).CPUThreshold) ∧
      ((defaultOptions.apply opts).CPUInterval ≤ 0 →
        (buildOptions opts).CPUInterval = 500 * (nsPerMs : Int)) ∧
      (0 < (defaultOptions.apply opts).CPUInterval →
        (buildOptions opts).CPUInterval = (defaultOptions.apply opts).CPUInterval) := by
  have hW := init_Window (defaultOptions.apply opts)
  have hB := init_Buckets (defaultOptions.apply opts)
  have hT := init_CPUThreshold (defaultOptions.apply opts)
  have hI := init_CPUInterval (defaultOptions.apply opts)
  unfold buildOptions
  refine ⟨?_, ?_, ?_, ?_, ?_, ?_, ?_, ?_, ?_, ?_, ?_, ?_⟩
  · rw [hW]
    split_ifs with h
    · decide
    · omega
  · rw [hB]
    split_ifs with h
    · decide
    · omega
  · rw [hT]
    split_ifs with h
    · decide
    · exact lt_of_not_le h
  · rw [hI]
    split_ifs with h
    · decide
    · omega
  · intro h
    rw [hW, if_pos h]
  · intro h
    rw [hW, if_neg (not_le.mpr h)]
  · intro h
    rw [hB, if_pos h]
  · intro h
    rw [hB, if_neg (not_le.mpr h)]
  · intro h
    rw [hT, if_pos h]
  · intro h
    rw [hT, if_neg (not_le.mpr h)]
  · intro h
    rw [hI, if_pos h]
  · intro h
    rw [hI, if_neg (not_le.mpr h)]

/-- Claim C3 witness: a negative window is replaced by the 10 s default and
the result is positive. -/
theorem options_init_defaults_witness :
    (defaultOptions.apply [ConfigOpt.withWindow (-5)]).Window ≤ 0 ∧
      0 < (buildOptions [ConfigOpt.withWindow (-5)]).Window ∧
      (buildOptions [ConfigOpt.withWindow (-5)]).Window = 10 * (nsPerSec : Int) := by
  refine ⟨by decide, ?_, ?_⟩
  · exact (options_init_defaults_amended [ConfigOpt.withWindow (-5)]).1
  · exact (options_init_defaults_amended [ConfigOpt.withWindow (-5)]).2.2.2.2.1 (by decide)

/-- Claim C5: the completion callback always decrements `inflight` by
exactly one; with a status outside 200-299 it leaves both counters
untouched; with a 2xx status it performs `passStat.Add(1)` - adding one unit
to the current bucket of the rotated array - and records the elapsed
milliseconds since the matching `Allow` into `rtStat`. -/
theorem done_success_only_feedback (l : BBRState) (startTime now : Nat) (status : Int)
    (hp : l.passStat.isMin = false) (hn : 0 < l.passStat.buckets.length) :
    (l.done startTime status now).inflight = l.inflight - 1 ∧
      (¬(200 ≤ status ∧ status ≤ 299) →
        (l.done startTime status now).passStat = l.passStat ∧
        (l.done startTime status now).rtStat = l.rtStat) ∧
      ((200 ≤ status ∧ status ≤ 299) →
        (l.done startTime status now).passStat = l.passStat.Add 1 now ∧
        (l.done startTime status now).rtStat =
          l.rtStat.Add (((now - startTime) / nsPerMs : Nat) : Int) now ∧
        (l.done startTime status now).passStat.buckets.getD (currentIdx l.passStat now) 0 =
          (l.passStat.rotate now).buckets.getD (currentIdx l.passStat now) 0 + 1) := by
  by_cases hs : 200 ≤ status ∧ status ≤ 299
  · refine ⟨by simp [BBRState.done, hs], fun hns => absurd hs hns, fun _ => ⟨?_, ?_, ?_⟩⟩
    · simp [BBRState.done, hs]
    · simp [BBRState.done, hs]
    · have hps : (l.done startTime status now).passStat = l.passStat.Add 1 now := by
        simp [BBRState.done, hs]
      rw [hps, Add_sum_buckets l.passStat 1 now hp]
      rw [List.getD_eq_getElem?_getD, List.getElem?_set, if_pos rfl,
        if_pos (by rw [rotate_length]; exact currentIdx_lt l.passStat now hn),
        List.getD_eq_getElem?_getD]
      rfl
  · refine ⟨by simp [BBRState.done, hs], fun _ => ⟨?_, ?_⟩, fun h => absurd h hs⟩
    · simp [BBRState.done, hs]
    · simp [BBRState.done, hs]

/-- Claim C5 witness: on a small concrete limiter, a 204 completion 3 ms
after admission decrements `inflight`, bumps the current `passStat` bucket
by one and records 3 ms into `rtStat`; the non-2xx side is exercised by the
implication being applied at this input. -/
theorem done_success_only_feedback_witness :
    (({ buildLimiter [ConfigOpt.withWindow 100, ConfigOpt.withBuckets 10] 0 with
          inflight := 1 } : BBRState).passStat.isMin = false ∧
      0 < ({ buildLimiter [ConfigOpt.withWindow 100, ConfigOpt.withBuckets 10] 0 with
          inflight := 1 } : BBRState).passStat.buckets.length) ∧
      (({ buildLimiter [ConfigOpt.withWindow 100, ConfigOpt.withBuckets 10] 0 with
          inflight := 1 } : BBRState).done 0 204 3000000).inflight =
        ({ buildLimiter [ConfigOpt.withWindow 100, ConfigOpt.withBuckets 10] 0 with
          inflight := 1 } : BBRState).inflight - 1 ∧
      (¬(200 ≤ (204 : Int) ∧ (204 : Int) ≤ 299) →
        (({ buildLimiter [ConfigOpt.withWindow 100, ConfigOpt.withBuckets 10] 0 with
            inflight := 1 } : BBRState).done 0 204 3000000).passStat =
          ({ buildLimiter [ConfigOpt.withWindow 100, ConfigOpt.withBuckets 10] 0 with
            inflight := 1 } : BBRState).passStat ∧
        (({ buildLimiter [ConfigOpt.withWindow 100, ConfigOpt.withBuckets 10] 0 with
            inflight := 1 } : BBRState).done 0 204 3000000).rtStat =
          ({ buildLimiter [ConfigOpt.withWindow 100, ConfigOpt.withBuckets 10] 0 with
            inflight := 1 } : BBRState).rtStat) ∧
      ((200 ≤ (204 : Int) ∧ (204 : Int) ≤ 299) →
        (({ buildLimiter [ConfigOpt.withWindow 100, ConfigOpt.withBuckets 10] 0 with
            inflight := 1 } : BBRState).done 0 204 3000000).passStat =
          ({ buildLimiter [ConfigOpt.withWindow 100, ConfigOpt.withBuckets 10] 0 with
            inflight := 1 } : BBRState).passStat.Add 1 3000000 ∧
        (({ buildLimiter [ConfigOpt.withWindow 100, ConfigOpt.withBuckets 10] 0 with
            inflight := 1 } : BBRState).done 0 204 3000000).rtStat =
          ({ buildLimiter [ConfigOpt.withWindow 100, ConfigOpt.withBuckets 10] 0 with
            inflight := 1 } : BBRState).rtStat.Add ((((3000000 : Nat) - 0) / nsPerMs : Nat) : Int)
            3000000 ∧
        (({ buildLimiter [ConfigOpt.withWindow 100, ConfigOpt.withBuckets 10] 0 with
            inflight := 1 } : BBRState).done 0 204 3000000).passStat.buckets.getD
            (currentIdx ({ buildLimiter [ConfigOpt.withWindow 100, ConfigOpt.withBuckets 10] 0 with
              inflight := 1 } : BBRState).passStat 3000000) 0 =
          (({ buildLimiter [ConfigOpt.withWindow 100, ConfigOpt.withBuckets 10] 0 with
            inflight := 1 } : BBRState).passStat.rotate 3000000).buckets.getD
            (currentIdx ({ buildLimiter [ConfigOpt.withWindow 100, ConfigOpt.withBuckets 10] 0 with
              inflight := 1 } : BBRState).passStat 3000000) 0 + 1) :=
  ⟨⟨by decide, by decide⟩,
    done_success_only_feedback _ 0 3000000 204 (by decide) (by decide)⟩

/-- Claim C10: any limiter state whose `passStat` slots are all zero and
whose `rtStat` slots are all the sentinel (exactly the state of a freshly
constructed limiter before any successful completion, whatever rotation has
happened since) has `passStat.Max() = 0`, `rtStat.Min() = 1` and
`maxInflight() = 0`; consequently, whenever the CPU reading is at or above
the threshold and at least two requests are in flight, `shouldDrop` is true
and `Allow` rejects with `ErrLimitExceeded` and a nil callback. -/
theorem cold_start_rejection (l : BBRState) (cpu : ℚ) (now : Nat)
    (hpass : l.passStat.buckets = List.replicate l.passStat.buckets.length 0)
    (hpmin : l.passStat.isMin = false)
    (hrt : l.rtStat.buckets = List.replicate l.rtStat.buckets.length maxInt64)
    (hcpu : l.conf.CPUThreshold ≤ cpu) (hinf : 2 ≤ l.inflight) :
    l.passStat.Max = 0 ∧ l.rtStat.Min = 1 ∧ l.maxInflight = 0 ∧
      (l.shouldDrop cpu now).1 = true ∧
      (l.Allow cpu now).2.1 = some BBRError.limitExceeded ∧
      (l.Allow cpu now).1 = none := by
  have hMax : l.passStat.Max = 0 := by
    apply Max_sum_zero _ hpmin
    intro x hx
    rw [hpass] at hx
    rw [List.eq_of_mem_replicate hx]
  have hMin : l.rtStat.Min = 1 := by
    apply Min_eq_one
    intro x hx
    rw [hrt] at hx
    rw [List.eq_of_mem_replicate hx]
    intro hq
    exact hq.2 rfl
  have hmi : l.maxInflight = 0 := by
    unfold BBRState.maxInflight
    dsimp only
    rw [hMax]
    simp
  have hdrop : (l.shouldDrop cpu now).1 = true := by
    unfold BBRState.shouldDrop
    rw [if_neg (not_lt.mpr hcpu)]
    unfold dropCheck
    rw [if_neg (by omega : ¬ l.inflight ≤ 1), if_pos]
    rw [hmi]
    exact_mod_cast (by omega : (0 : Int) < l.inflight)
  refine ⟨hMax, hMin, hmi, hdrop, ?_, ?_⟩ <;>
    simp [BBRState.Allow, hdrop]

/-- Claim C10 witness: a freshly built limiter (100 ns window, 10 buckets)
with two requests in flight and CPU reading 1 is rejected. -/
theorem cold_start_rejection_witness :
    (({ buildLimiter [ConfigOpt.withWindow 100, ConfigOpt.withBuckets 10] 0 with
          inflight := 2 } : BBRState).passStat.buckets =
        List.replicate ({ buildLimiter [ConfigOpt.withWindow 100, ConfigOpt.withBuckets 10] 0 with
          inflight := 2 } : BBRState).passStat.buckets.length 0 ∧
      ({ buildLimiter [ConfigOpt.withWindow 100, ConfigOpt.withBuckets 10] 0 with
          inflight := 2 } : BBRState).passStat.isMin = false ∧
      ({ buildLimiter [ConfigOpt.withWindow 100, ConfigOpt.withBuckets 10] 0 with
          inflight := 2 } : BBRState).rtStat.buckets =
        List.replicate ({ buildLimiter [ConfigOpt.withWindow 100, ConfigOpt.withBuckets 10] 0 with
          inflight := 2 } : BBRState).rtStat.buckets.length maxInt64 ∧
      ({ buildLimiter [ConfigOpt.withWindow 100, ConfigOpt.withBuckets 10] 0 with
          inflight := 2 } : BBRState).conf.CPUThreshold ≤ (1 : ℚ) ∧
      2 ≤ ({ buildLimiter [ConfigOpt.withWindow 100, ConfigOpt.withBuckets 10] 0 with
          inflight := 2 } : BBRState).inflight) ∧
      ({ buildLimiter [ConfigOpt.withWindow 100, ConfigOpt.withBuckets 10] 0 with
          inflight := 2 } : BBRState).passStat.Max = 0 ∧
      ({ buildLimiter [ConfigOpt.withWindow 100, ConfigOpt.withBuckets 10] 0 with
          inflight := 2 } : BBRState).rtStat.Min = 1 ∧
      ({ buildLimiter [ConfigOpt.withWindow 100, ConfigOpt.withBuckets 10] 0 with
          inflight := 2 } : BBRState).maxInflight = 0 ∧
      (({ buildLimiter [ConfigOpt.withWindow 100, ConfigOpt.withBuckets 10] 0 with
          inflight := 2 } : BBRState).shouldDrop 1 17).1 = true ∧
      (({ buildLimiter [ConfigOpt.withWindow 100, ConfigOpt.withBuckets 10] 0 with
          inflight := 2 } : BBRState).Allow 1 17).2.1 = some BBRError.limitExceeded ∧
      (({ buildLimiter [ConfigOpt.withWindow 100, ConfigOpt.withBuckets 10] 0 with
          inflight := 2 } : BBRState).Allow 1 17).1 = none :=
  ⟨⟨by decide, by decide, by decide, by decide, by decide⟩,
    cold_start_rejection _ 1 17 (by decide) (by decide) (by decide) (by decide) (by decide)⟩

/-- Rotation never moves `lastUpdate` beyond the rotation instant. -/
theorem rotate_lastUpdate_le (c : RollingCounter) (now : Nat)
    (h : c.lastUpdate ≤ now) : (c.rotate now).lastUpdate ≤ now := by
  unfold RollingCounter.rotate
  split
  · exact h
  · exact le_refl now

/-- `Add` never moves `lastUpdate` beyond the call instant. -/
theorem Add_lastUpdate_le (c : RollingCounter) (v : Int) (now : Nat)
    (h : c.lastUpdate ≤ now) : (c.Add v now).lastUpdate ≤ now := by
  have hr := rotate_lastUpdate_le c now h
  simp only [RollingCounter.Add]
  split
  · split
    · exact hr
    · exact hr
  · exact hr

/-- Claim C2 counterexample: on a fresh sum-mode counter with window 100 ns
and 10 buckets, `Add(5)` at instant 0 followed by `Max()` after the whole
window has elapsed (e.g. at instant 1000, and 100 < 1000 - 0) still returns
5, not 0: `Max` reads only the slots - like the Go method, it takes no clock
reading and performs no rotation - and no other call has mutated the state,
so the value the claim requires to be 0 is in fact 5. -/
theorem max_after_window_counterexample :
    ((newRollingCounter 100 10 false 0).Add 5 0).Max = 5 ∧
      (5 : Int) ≠ 0 ∧ (100 : Nat) < 1000 - 0 := by
  decide

/-- Claim C2, amended: for a fresh sum-mode counter with window `W` (at
least one bucket duration, `0 < W/N`) and `N` buckets, `Add(v)` once makes
`Max()` return `v`; after more than `W` has elapsed with no further calls
`Max()` still returns `v` (the counter state is untouched by the passage of
time); expiry happens at the next rotation: an `Add(v2)` more than `W` after
the previous `Add` first clears every bucket, so `Max()` afterwards returns
`v2`. -/
theorem max_after_add_and_expiry_amended (w n v v2 t0 t1 t2 : Nat)
    (hn : 0 < n) (hbd : 0 < w / n) (h01 : t0 ≤ t1) (h12 : w < t2 - t1) :
    ((newRollingCounter w n false t0).Add (v : Int) t1).Max = v ∧
      (((newRollingCounter w n false t0).Add (v : Int) t1).Add (v2 : Int) t2).Max = v2 := by
  have hb0 : (newRollingCounter w n false t0).buckets =
      List.replicate (newRollingCounter w n false t0).buckets.length 0 := by
    simp [newRollingCounter]
  have hl0 : (newRollingCounter w n false t0).buckets.length = n := by
    simp [newRollingCounter]
  have hm0 : (newRollingCounter w n false t0).isMin = false := rfl
  have hd0 : (newRollingCounter w n false t0).bucketDur = w / n := rfl
  have hn0 : 0 < (newRollingCounter w n false t0).buckets.length := by
    rw [hl0]
    exact hn
  constructor
  · exact Max_after_Add_on_zero _ _ t1 hm0 hb0 hn0 (Int.natCast_nonneg v)
  · have hm1 : ((newRollingCounter w n false t0).Add (v : Int) t1).isMin = false :=
      (Add_isMin _ _ _).trans hm0
    have hd1 : ((newRollingCounter w n false t0).Add (v : Int) t1).bucketDur = w / n :=
      (Add_bucketDur _ _ _).trans hd0
    have hl1 : ((newRollingCounter w n false t0).Add (v : Int) t1).buckets.length = n :=
      (Add_length _ _ _).trans hl0
    have hlu1 : ((newRollingCounter w n false t0).Add (v : Int) t1).lastUpdate ≤ t1 :=
      Add_lastUpdate_le _ _ _ h01
    have hbd1 : 0 < ((newRollingCounter w n false t0).Add (v : Int) t1).bucketDur := by
      rw [hd1]
      exact hbd
    have hclear : (((newRollingCounter w n false t0).Add (v : Int) t1).rotate t2).buckets =
        List.replicate n (0 : Int) := by
      have h := rotate_clear_all ((newRollingCounter w n false t0).Add (v : Int) t1) t2
        (by rw [hl1]; exact hn) hbd1 ?_
      · rw [hl1, hm1] at h
        simpa using h
      · rw [hl1, hd1]
        have h1 : n * (w / n) ≤ w := by
          rw [mul_comm]
          exact Nat.div_mul_le_self w n
        have h2 : t2 - t1 ≤ t2 - ((newRollingCounter w n false t0).Add (v : Int) t1).lastUpdate :=
          Nat.sub_le_sub_left hlu1 t2
        omega
    have hm2 : (((newRollingCounter w n false t0).Add (v : Int) t1).rotate t2).isMin = false :=
      (rotate_isMin _ _).trans hm1
    have hl2 : (((newRollingCounter w n false t0).Add (v : Int) t1).rotate t2).buckets.length = n := by
      rw [rotate_length]
      exact hl1
    have hb2 : (((newRollingCounter w n false t0).Add (v : Int) t1).rotate t2).buckets =
        List.replicate (((newRollingCounter w n false t0).Add (v : Int) t1).rotate t2).buckets.length 0 := by
      rw [hclear, List.length_replicate]
    rw [← Add_rotate _ (v2 : Int) t2 hbd1]
    exact Max_after_Add_on_zero _ _ t2 hm2 hb2 (by rw [hl2]; exact hn) (Int.natCast_nonneg v2)

/-- Claim C2 witness: window 100 ns over 10 buckets, `Add(5)` at 7, `Max()`
returns 5; an `Add(9)` at 1000 (more than one window later) expires
everything, leaving `Max() = 9`. -/
theorem max_after_add_expiry_witness :
    (0 < 10 ∧ 0 < (100 : Nat) / 10 ∧ (0 : Nat) ≤ 7 ∧ (100 : Nat) < 1000 - 7) ∧
      ((newRollingCounter 100 10 false 0).Add ((5 : Nat) : Int) 7).Max = 5 ∧
      (((newRollingCounter 100 10 false 0).Add ((5 : Nat) : Int) 7).Add ((9 : Nat) : Int) 1000).Max = 9 :=
  ⟨⟨by decide, by decide, by decide, by decide⟩,
    max_after_add_and_expiry_amended 100 10 5 9 0 7 1000
      (by decide) (by decide) (by decide) (by decide)⟩

/-- Min-mode `Add` description when no rotation is pending and the new value
beats the current slot: the slot is overwritten. -/
theorem Add_min_step (c : RollingCounter) (v : Int) (now : Nat)
    (hm : c.isMin = true) (hrot : c.rotate now = c)
    (hlt : v < c.buckets.getD (currentIdx c now) 0) :
    (c.Add v now).buckets = c.buckets.set (currentIdx c now) v := by
  simp only [RollingCounter.Add]
  rw [hrot, if_pos hm, if_pos hlt]

/-- Claim C6: `Min()` returns the smallest slot value that is positive and
not the sentinel, and 1 when no slot qualifies (stated for int64-ranged
slots); in particular on a fresh min-mode counter (any window of at least
one bucket duration) `Min()` is 1, after `Add(5)` it is 5, and after
`Add(5)` then `Add(3)` within the same bucket (same instant) it is 3. -/
theorem min_semantics (c : RollingCounter) (w n t0 t : Nat)
    (hrange : ∀ x ∈ c.buckets, x ≤ maxInt64) (hn : 0 < n) (hbd : 0 < w / n) :
    ((∀ x ∈ c.buckets, ¬(0 < x ∧ x ≠ maxInt64)) → c.Min = 1) ∧
      ((∃ x ∈ c.buckets, 0 < x ∧ x ≠ maxInt64) →
        c.Min ∈ c.buckets ∧ 0 < c.Min ∧ c.Min ≠ maxInt64 ∧
          ∀ y ∈ c.buckets, 0 < y → y ≠ maxInt64 → c.Min ≤ y) ∧
      (newRollingCounter w n true t0).Min = 1 ∧
      ((newRollingCounter w n true t0).Add 5 t).Min = 5 ∧
      (((newRollingCounter w n true t0).Add 5 t).Add 3 t).Min = 3 := by
  have hb0 : (newRollingCounter w n true t0).buckets =
      List.replicate (newRollingCounter w n true t0).buckets.length maxInt64 := by
    simp [newRollingCounter]
  have hl0 : (newRollingCounter w n true t0).buckets.length = n := by
    simp [newRollingCounter]
  have hm0 : (newRollingCounter w n true t0).isMin = true := rfl
  have hd0 : (newRollingCounter w n true t0).bucketDur = w / n := rfl
  have hn0 : 0 < (newRollingCounter w n true t0).buckets.length := by
    rw [hl0]
    exact hn
  refine ⟨fun hall => Min_eq_one c hall, ?_, ?_, ?_, ?_⟩
  · rintro ⟨x, hx, h0, hM⟩
    exact Min_spec c hrange x hx h0 hM
  · apply Min_eq_one
    intro x hx
    rw [hb0] at hx
    rw [List.eq_of_mem_replicate hx]
    intro hq
    exact hq.2 rfl
  · exact Min_after_Add_on_sentinel _ 5 t hm0 hb0 hn0 (by decide) (by decide)
  · have hb1 : ((newRollingCounter w n true t0).Add 5 t).buckets =
        (newRollingCounter w n true t0).buckets.set
          (currentIdx (newRollingCounter w n true t0) t) 5 :=
      Add_on_sentinel_min _ 5 t hm0 hb0 hn0 (by decide)
    have hm1 : ((newRollingCounter w n true t0).Add 5 t).isMin = true :=
      (Add_isMin _ _ _).trans hm0
    have hidx : currentIdx ((newRollingCounter w n true t0).Add 5 t) t =
        currentIdx (newRollingCounter w n true t0) t := by
      unfold currentIdx
      rw [Add_bucketDur, Add_length]
    have hidxlt : currentIdx (newRollingCounter w n true t0) t < n := by
      have h := currentIdx_lt (newRollingCounter w n true t0) t hn0
      rwa [hl0] at h
    have hrot : ((newRollingCounter w n true t0).Add 5 t).rotate t =
        (newRollingCounter w n true t0).Add 5 t :=
      rotate_self _ t (Add_lastUpdate_lt _ 5 t (by rw [hd0]; exact hbd))
    have hgd : ((newRollingCounter w n true t0).Add 5 t).buckets.getD
        (currentIdx ((newRollingCounter w n true t0).Add 5 t) t) 0 = 5 := by
      rw [hidx, hb1, List.getD_eq_getElem?_getD, List.getElem?_set, if_pos rfl,
        if_pos (by rw [hl0]; exact hidxlt)]
      rfl
    have hb2 : (((newRollingCounter w n true t0).Add 5 t).Add 3 t).buckets =
        ((newRollingCounter w n true t0).Add 5 t).buckets.set
          (currentIdx ((newRollingCounter w n true t0).Add 5 t) t) 3 :=
      Add_min_step _ 3 t hm1 hrot (by rw [hgd]; decide)
    have hfinal : (((newRollingCounter w n true t0).Add 5 t).Add 3 t).buckets =
        (List.replicate n maxInt64).set (currentIdx (newRollingCounter w n true t0) t) 3 := by
      rw [hb2, hidx, hb1, List.set_set, hb0, hl0]
    exact Min_single _ n (currentIdx (newRollingCounter w n true t0) t) 3 hidxlt
      (by decide) (by decide) (by decide) hfinal

/-- Concrete mixed slot array (a zero, the sentinel, a 4 and a 6) used to
exercise the general Min clauses. -/
def minWitnessCounter : RollingCounter :=
  { buckets := [0, 9223372036854775807, 4, 6]
    window := 100
    bucketDur := 25
    lastUpdate := 0
    isMin := true }

/-- Claim C6 witness: the general clauses at a concrete mixed array (whose
Min is 4), and the fresh-counter instances with window 100 ns, 10 buckets,
adds at instant 7. -/
theorem min_semantics_witness :
    ((∀ x ∈ minWitnessCounter.buckets, x ≤ maxInt64) ∧ 0 < 10 ∧ 0 < (100 : Nat) / 10) ∧
      ((∀ x ∈ minWitnessCounter.buckets, ¬(0 < x ∧ x ≠ maxInt64)) → minWitnessCounter.Min = 1) ∧
      ((∃ x ∈ minWitnessCounter.buckets, 0 < x ∧ x ≠ maxInt64) →
        minWitnessCounter.Min ∈ minWitnessCounter.buckets ∧
          0 < minWitnessCounter.Min ∧ minWitnessCounter.Min ≠ maxInt64 ∧
          ∀ y ∈ minWitnessCounter.buckets, 0 < y → y ≠ maxInt64 →
            minWitnessCounter.Min ≤ y) ∧
      (newRollingCounter 100 10 true 0).Min = 1 ∧
      ((newRollingCounter 100 10 true 0).Add 5 7).Min = 5 ∧
      (((newRollingCounter 100 10 true 0).Add 5 7).Add 3 7).Min = 3 :=
  ⟨⟨by decide, by decide, by decide⟩,
    min_semantics minWitnessCounter 100 10 0 7 (by decide) (by decide) (by decide)⟩

end GooseBBR
